import Mathlib

/-!
Verification of the telemetry layer of the todo-service repository.

The repository consists of `src/tracer.ts` (telemetry bootstrap), an unnamed
variant of it (`src/unnamed/part_000`), and `src/todo-service.ts` (the express
application).  The context-propagation layer (W3C traceparent / baggage
propagators from `@opentelemetry/core`) and the custom sampler
(`./ourSampler`) are configured but their code is not part of `src/`; those
components are modelled from the spec (section 4.1, 4.2), as marked on each
definition.  Strings are modelled as lists of characters (`Str`).
-/

namespace OTel

/-- Strings, modelled as lists of characters. -/
abbrev Str := List Char

/-! ## Hexadecimal encoding

The W3C `traceparent` header carries trace-id / span-id / flags as fixed-width
lowercase hexadecimal fields; percent-encoding of baggage values also needs
two-digit hex.  `toHex w n` renders `n` as exactly `w` lowercase hex digits
(most significant first). -/

/-- The lowercase hex digit for a value `d < 16` (`'0'`–`'9'`, `'a'`–`'f'`). -/
def hexDigitChar (d : Nat) : Char :=
  if d < 10 then Char.ofNat (48 + d) else Char.ofNat (87 + d)

/-- Fixed-width lowercase hexadecimal rendering, most significant digit first. -/
def toHex : Nat → Nat → Str
  | 0, _ => []
  | w + 1, n => hexDigitChar (n / 16 ^ w) :: toHex w (n % 16 ^ w)

/-- Parse one lowercase hex digit. -/
def parseHexDigit (c : Char) : Option Nat :=
  if 48 ≤ c.toNat ∧ c.toNat ≤ 57 then some (c.toNat - 48)
  else if 97 ≤ c.toNat ∧ c.toNat ≤ 102 then some (c.toNat - 87)
  else none

/-- Accumulator-style hex parser: fails on any non-hex-digit character. -/
def parseHexGo (acc : Nat) : Str → Option Nat
  | [] => some acc
  | c :: cs =>
    match parseHexDigit c with
    | none => none
    | some d => parseHexGo (16 * acc + d) cs

/-- Parse a lowercase hexadecimal string. -/
def parseHex (s : Str) : Option Nat := parseHexGo 0 s

theorem toHex_length (w n : Nat) : (toHex w n).length = w := by
  induction w generalizing n with
  | zero => rfl
  | succ w ih => simp [toHex, ih]

theorem parseHexDigit_hexDigitChar : ∀ d, d < 16 → parseHexDigit (hexDigitChar d) = some d := by
  decide

theorem parseHexGo_toHex (w : Nat) :
    ∀ n acc, n < 16 ^ w → parseHexGo acc (toHex w n) = some (acc * 16 ^ w + n) := by
  induction w with
  | zero =>
    intro n acc h
    interval_cases n
    simp [toHex, parseHexGo]
  | succ w ih =>
    intro n acc h
    have hdig : n / 16 ^ w < 16 := by
      have h16 : (0:Nat) < 16 ^ w := Nat.pos_pow_of_pos w (by norm_num)
      have := (Nat.div_lt_iff_lt_mul h16).2 (by
        calc n < 16 ^ (w + 1) := h
        _ = 16 * 16 ^ w := by ring)
      omega
    have hmod : n % 16 ^ w < 16 ^ w :=
      Nat.mod_lt _ (Nat.pos_pow_of_pos w (by norm_num))
    simp only [toHex, parseHexGo, parseHexDigit_hexDigitChar _ hdig]
    rw [ih (n % 16 ^ w) (16 * acc + n / 16 ^ w) hmod]
    congr 1
    have hdm := Nat.div_add_mod n (16 ^ w)
    have heq : (16 * acc + n / 16 ^ w) * 16 ^ w + n % 16 ^ w
        = acc * (16 * 16 ^ w) + (16 ^ w * (n / 16 ^ w) + n % 16 ^ w) := by ring
    rw [heq, hdm, pow_succ]
    ring

theorem parseHex_toHex (w n : Nat) (h : n < 16 ^ w) : parseHex (toHex w n) = some n := by
  have := parseHexGo_toHex w n 0 h
  simpa [parseHex] using this

/-- Every character emitted by `toHex` (within range) is a lowercase hex digit. -/
theorem toHex_mem (w : Nat) :
    ∀ n, n < 16 ^ w → ∀ c ∈ toHex w n, ∃ d, d < 16 ∧ c = hexDigitChar d := by
  induction w with
  | zero => intro n _ c hc; simp [toHex] at hc
  | succ w ih =>
    intro n h c hc
    have hdig : n / 16 ^ w < 16 := by
      have h16 : (0:Nat) < 16 ^ w := Nat.pos_pow_of_pos w (by norm_num)
      have := (Nat.div_lt_iff_lt_mul h16).2 (by
        calc n < 16 ^ (w + 1) := h
        _ = 16 * 16 ^ w := by ring)
      omega
    have hmod : n % 16 ^ w < 16 ^ w :=
      Nat.mod_lt _ (Nat.pos_pow_of_pos w (by norm_num))
    simp only [toHex, List.mem_cons] at hc
    rcases hc with rfl | hc
    · exact ⟨n / 16 ^ w, hdig, rfl⟩
    · exact ih (n % 16 ^ w) hmod c hc

theorem hexDigitChar_ne :
    ∀ d, d < 16 → hexDigitChar d ≠ '-' ∧ hexDigitChar d ≠ ',' ∧
      hexDigitChar d ≠ '=' ∧ hexDigitChar d ≠ '%' := by
  decide

/-- A parsed hex string consists only of hex-digit characters. -/
theorem parseHexGo_mem :
    ∀ (s : Str) (acc m : Nat), parseHexGo acc s = some m →
      ∀ c ∈ s, (parseHexDigit c).isSome := by
  intro s
  induction s with
  | nil => intro acc m _ c hc; simp at hc
  | cons a as ih =>
    intro acc m hparse c hc
    simp only [parseHexGo] at hparse
    rcases hd : parseHexDigit a with _ | d
    · rw [hd] at hparse; exact absurd hparse (by simp)
    · rw [hd] at hparse
      rcases List.mem_cons.1 hc with rfl | hc'
      · simp [hd]
      · exact ih _ _ hparse c hc'

/-! ## Splitting on a separator character

`splitOnC sep s` splits `s` into the (always non-empty) list of maximal
separator-free groups; `joinSep` is its inverse on separator-free groups.
These model the comma/dash/equals splitting done by the W3C header parsers. -/

def splitOnC (sep : Char) : Str → List Str
  | [] => [[]]
  | c :: cs =>
    let r := splitOnC sep cs
    if c = sep then [] :: r
    else
      match r with
      | [] => [[c]]
      | g :: gs => (c :: g) :: gs

def joinSep (sep : Char) : List Str → Str
  | [] => []
  | [g] => g
  | g :: h :: t => g ++ sep :: joinSep sep (h :: t)

theorem splitOnC_ne_nil (sep : Char) : ∀ s, splitOnC sep s ≠ [] := by
  intro s
  induction s with
  | nil => simp [splitOnC]
  | cons c cs ih =>
    simp only [splitOnC]
    split
    · simp
    · rcases h : splitOnC sep cs with _ | ⟨g, gs⟩
      · exact absurd h ih
      · simp

/-- Splitting a string that starts with a separator-free group followed by the
separator peels off exactly that group. -/
theorem splitOnC_append (sep : Char) :
    ∀ (a rest : Str), (∀ c ∈ a, c ≠ sep) →
      splitOnC sep (a ++ sep :: rest) = a :: splitOnC sep rest := by
  intro a
  induction a with
  | nil => intro rest _; simp [splitOnC]
  | cons c cs ih =>
    intro rest hfree
    have hc : c ≠ sep := hfree c (List.mem_cons_self c cs)
    have hcs : ∀ x ∈ cs, x ≠ sep := fun x hx => hfree x (List.mem_cons_of_mem c hx)
    simp only [List.cons_append, splitOnC, if_neg hc, List.append_eq, ih rest hcs]

/-- Splitting a separator-free string yields the single group. -/
theorem splitOnC_sepFree (sep : Char) :
    ∀ (a : Str), (∀ c ∈ a, c ≠ sep) → splitOnC sep a = [a] := by
  intro a
  induction a with
  | nil => simp [splitOnC]
  | cons c cs ih =>
    intro hfree
    have hc : c ≠ sep := hfree c (List.mem_cons_self c cs)
    have hcs : ∀ x ∈ cs, x ≠ sep := fun x hx => hfree x (List.mem_cons_of_mem c hx)
    simp only [splitOnC, if_neg hc, ih hcs]

/-- `joinSep` undoes `splitOnC` on any string. -/
theorem joinSep_splitOnC (sep : Char) :
    ∀ s, joinSep sep (splitOnC sep s) = s := by
  intro s
  induction s with
  | nil => simp [splitOnC, joinSep]
  | cons c cs ih =>
    simp only [splitOnC]
    split
    · rcases h : splitOnC sep cs with _ | ⟨g, gs⟩
      · exact absurd h (splitOnC_ne_nil sep cs)
      · rename_i hc
        subst hc
        rw [h] at ih
        simp only [joinSep, List.nil_append]
        rw [ih]
    · rcases h : splitOnC sep cs with _ | ⟨g, gs⟩
      · exact absurd h (splitOnC_ne_nil sep cs)
      · rw [h] at ih
        rcases gs with _ | ⟨g2, gs2⟩
        · simpa [joinSep] using congrArg (c :: ·) ih
        · simpa [joinSep] using congrArg (c :: ·) ih

/-- Splitting `joinSep` of non-empty separator-free groups recovers the groups. -/
theorem splitOnC_joinSep (sep : Char) :
    ∀ (gs : List Str), gs ≠ [] → (∀ g ∈ gs, ∀ c ∈ g, c ≠ sep) →
      splitOnC sep (joinSep sep gs) = gs := by
  intro gs
  induction gs with
  | nil => intro h _; exact absurd rfl h
  | cons g rest ih =>
    intro _ hfree
    rcases rest with _ | ⟨g2, rest2⟩
    · simpa [joinSep] using splitOnC_sepFree sep g (hfree g (by simp))
    · have hg : ∀ c ∈ g, c ≠ sep := hfree g (by simp)
      have hrest : ∀ x ∈ g2 :: rest2, ∀ c ∈ x, c ≠ sep :=
        fun x hx => hfree x (List.mem_cons_of_mem g hx)
      simp only [joinSep]
      rw [splitOnC_append sep g _ hg, ih (by simp) hrest]

/-! ## Percent (URL) encoding

The spec (§4.1) requires baggage keys/values to be URL-encoded into the
`baggage` header.  Unreserved characters pass through; every other character
is rendered as `%` followed by its two-digit lowercase hex code.  Baggage is
restricted to single-byte characters (code point < 256), which covers the
ASCII alphabet W3C baggage allows. -/

def isUnreservedChar (c : Char) : Bool :=
  c.isAlphanum || c = '-' || c = '.' || c = '_' || c = '~'

def percentEncodeChar (c : Char) : Str :=
  if isUnreservedChar c then [c] else '%' :: toHex 2 c.toNat

def percentEncode : Str → Str
  | [] => []
  | c :: cs => percentEncodeChar c ++ percentEncode cs

def percentDecode : Str → Option Str
  | [] => some []
  | c :: cs =>
    if c = '%' then
      match cs with
      | a :: b :: rest =>
        match parseHexDigit a, parseHexDigit b, percentDecode rest with
        | some d1, some d2, some t => some (Char.ofNat (16 * d1 + d2) :: t)
        | _, _, _ => none
      | _ => none
    else
      match percentDecode cs with
      | some t => some (c :: t)
      | none => none

theorem percent_not_unreserved : isUnreservedChar '%' = false := by decide

/-- Decoding inverts encoding on single-byte strings. -/
theorem percentDecode_percentEncode :
    ∀ s : Str, (∀ c ∈ s, c.toNat < 256) →
      percentDecode (percentEncode s) = some s := by
  intro s
  induction s with
  | nil => simp [percentEncode, percentDecode]
  | cons c cs ih =>
    intro hb
    have hc : c.toNat < 256 := hb c (by simp)
    have hcs : ∀ x ∈ cs, x.toNat < 256 := fun x hx => hb x (List.mem_cons_of_mem c hx)
    simp only [percentEncode, percentEncodeChar]
    by_cases hu : isUnreservedChar c
    · have hcp : c ≠ '%' := by
        intro h; rw [h] at hu; exact absurd hu (by decide)
      simp only [if_pos hu, List.cons_append, List.nil_append]
      rw [percentDecode.eq_def]
      simp only [if_neg hcp, ih hcs]
    · have h16 : c.toNat / 16 < 16 := by omega
      have h16' : c.toNat % 16 < 16 := Nat.mod_lt _ (by norm_num)
      have htwo : toHex 2 c.toNat
          = [hexDigitChar (c.toNat / 16), hexDigitChar (c.toNat % 16)] := by
        norm_num [toHex]
      simp only [if_neg hu, htwo, List.cons_append, List.nil_append]
      rw [percentDecode.eq_def]
      simp only [if_pos rfl,
        parseHexDigit_hexDigitChar _ h16, parseHexDigit_hexDigitChar _ h16', ih hcs]
      have heqc : 16 * (c.toNat / 16) + c.toNat % 16 = c.toNat := by omega
      rw [heqc, Char.ofNat_toNat]
      simp

/-- Characters of a percent-encoded single-byte string are unreserved
characters, `%`, or hex digits; in particular never `,`, `=` or `-`. -/
theorem percentEncode_mem :
    ∀ (s : Str), (∀ c ∈ s, c.toNat < 256) → ∀ c ∈ percentEncode s,
      isUnreservedChar c = true ∨ c = '%' ∨ ∃ d, d < 16 ∧ c = hexDigitChar d := by
  intro s
  induction s with
  | nil => intro _ c hc; simp [percentEncode] at hc
  | cons a as ih =>
    intro hb c hc
    have ha : a.toNat < 256 := hb a (by simp)
    have has : ∀ x ∈ as, x.toNat < 256 := fun x hx => hb x (List.mem_cons_of_mem a hx)
    simp only [percentEncode, List.mem_append] at hc
    rcases hc with hc | hc
    · simp only [percentEncodeChar] at hc
      by_cases hu : isUnreservedChar a
      · rw [if_pos hu] at hc
        simp at hc
        subst hc
        exact Or.inl hu
      · rw [if_neg hu] at hc
        rcases List.mem_cons.1 hc with rfl | hc'
        · exact Or.inr (Or.inl rfl)
        · have hlt : a.toNat < 16 ^ 2 := by norm_num; omega
          exact Or.inr (Or.inr (toHex_mem 2 a.toNat hlt c hc'))
    · exact ih has c hc

/-- No character of a percent-encoded single-byte string is `,` or `=`. -/
theorem percentEncode_ne_sep :
    ∀ (s : Str), (∀ c ∈ s, c.toNat < 256) → ∀ c ∈ percentEncode s,
      c ≠ ',' ∧ c ≠ '=' := by
  intro s hb c hc
  rcases percentEncode_mem s hb c hc with hu | rfl | ⟨d, hd, rfl⟩
  · constructor <;> (intro h; subst h; exact absurd hu (by decide))
  · constructor <;> decide
  · exact ⟨(hexDigitChar_ne d hd).2.1, (hexDigitChar_ne d hd).2.2.1⟩

/-! ## The composite W3C propagator

Modelled from the spec (§4.1 Context Carrier): `src/tracer.ts:103-105`
configures `CompositePropagator` over `W3CTraceContextPropagator` and
`W3CBaggagePropagator` (both from `@opentelemetry/core`, whose code is not in
`src/`).  `inject` serializes trace-id, span-id and sampled flag into a
`traceparent` string `version-traceid-spanid-flags` and baggage into a
`baggage` string of comma-separated URL-encoded `key=value` pairs; `extract`
is the inverse, returning `none` ("no parent", a new root) instead of failing
on malformed or missing headers. -/

/-- The execution context carried across process boundaries: 128-bit trace id,
64-bit span id, sampled flag, and baggage entries. -/
structure ExecutionContext where
  traceId : Nat
  spanId : Nat
  sampled : Bool
  baggage : List (Str × Str)
deriving DecidableEq

/-- The header map the propagator reads and writes.  Only the two headers the
composite propagator touches are modelled; a missing header is `none`. -/
structure Headers where
  traceparent : Option Str
  baggage : Option Str
deriving DecidableEq

/-- `traceparent` serialization: `00-<32 hex>-<16 hex>-<2 hex flags>`, the
sampled flag in the least significant flag bit. -/
def injectTraceparent (c : ExecutionContext) : Str :=
  toHex 2 0 ++ '-' :: toHex 32 c.traceId ++ '-' :: toHex 16 c.spanId
    ++ '-' :: toHex 2 (if c.sampled then 1 else 0)

/-- One serialized baggage entry: `key=value`, both sides percent-encoded. -/
def injectBaggageEntry (e : Str × Str) : Str :=
  percentEncode e.1 ++ '=' :: percentEncode e.2

/-- The `baggage` header value: entries joined with commas. -/
def injectBaggage (b : List (Str × Str)) : Str :=
  joinSep ',' (b.map injectBaggageEntry)

/-- Inject the context into a header map.  The baggage header is only set
when there is at least one entry. -/
def inject (c : ExecutionContext) : Headers :=
  { traceparent := some (injectTraceparent c)
    baggage := if c.baggage.isEmpty then none else some (injectBaggage c.baggage) }

/-- Parse a `traceparent` value into (trace-id, span-id, sampled).  Rejects
anything that is not four dash-separated lowercase-hex fields of widths
2/32/16/2, the invalid version `ff`, and all-zero trace or span ids. -/
def parseTraceparent (s : Str) : Option (Nat × Nat × Bool) :=
  match splitOnC '-' s with
  | [ver, tid, sid, fl] =>
    if ver.length = 2 ∧ tid.length = 32 ∧ sid.length = 16 ∧ fl.length = 2 then
      match parseHex ver, parseHex tid, parseHex sid, parseHex fl with
      | some v, some t, some p, some f =>
        if v = 255 ∨ t = 0 ∨ p = 0 then none
        else some (t, p, f % 2 = 1)
      | _, _, _, _ => none
    else none
  | _ => none

/-- Parse one `key=value` baggage entry. -/
def parseBaggageEntry (e : Str) : Option (Str × Str) :=
  match splitOnC '=' e with
  | [k, v] =>
    match percentDecode k, percentDecode v with
    | some k', some v' => some (k', v')
    | _, _ => none
  | _ => none

def parseEntries : List Str → Option (List (Str × Str))
  | [] => some []
  | e :: es =>
    match parseBaggageEntry e, parseEntries es with
    | some p, some ps => some (p :: ps)
    | _, _ => none

/-- Parse a `baggage` header value. -/
def parseBaggage (s : Str) : Option (List (Str × Str)) :=
  parseEntries (splitOnC ',' s)

/-- Extract a context from a header map.  `none` is the "no parent" (new
root) result: it is returned whenever the `traceparent` header is missing or
malformed.  A malformed `baggage` header only drops the baggage.  `extract`
is a total function: no input can make it fail. -/
def extract (h : Headers) : Option ExecutionContext :=
  match h.traceparent with
  | none => none
  | some tp =>
    match parseTraceparent tp with
    | none => none
    | some (t, p, sf) =>
      some { traceId := t, spanId := p, sampled := sf,
             baggage :=
               match h.baggage with
               | none => []
               | some b => (parseBaggage b).getD [] }

/-- A valid context: non-zero ids in range, and single-byte baggage
characters (W3C baggage is ASCII). -/
def ValidContext (c : ExecutionContext) : Prop :=
  0 < c.traceId ∧ c.traceId < 2 ^ 128 ∧ 0 < c.spanId ∧ c.spanId < 2 ^ 64 ∧
    ∀ e ∈ c.baggage, (∀ ch ∈ e.1, ch.toNat < 256) ∧ ∀ ch ∈ e.2, ch.toNat < 256

instance : DecidablePred ValidContext := fun c => by
  unfold ValidContext
  infer_instance

theorem toHex_ne_dash (w n : Nat) (h : n < 16 ^ w) : ∀ ch ∈ toHex w n, ch ≠ '-' := by
  intro ch hch
  obtain ⟨d, hd, rfl⟩ := toHex_mem w n h ch hch
  exact (hexDigitChar_ne d hd).1

theorem parseTraceparent_injectTraceparent (c : ExecutionContext)
    (h1 : 0 < c.traceId) (h2 : c.traceId < 2 ^ 128)
    (h3 : 0 < c.spanId) (h4 : c.spanId < 2 ^ 64) :
    parseTraceparent (injectTraceparent c) = some (c.traceId, c.spanId, c.sampled) := by
  have ht : c.traceId < 16 ^ 32 := by
    have he : (16:Nat) ^ 32 = 2 ^ 128 := by norm_num
    omega
  have hs : c.spanId < 16 ^ 16 := by
    have he : (16:Nat) ^ 16 = 2 ^ 64 := by norm_num
    omega
  have hfl : (if c.sampled then 1 else 0) < 16 ^ 2 := by split <;> norm_num
  unfold injectTraceparent parseTraceparent
  simp only [List.cons_append, List.append_assoc]
  rw [splitOnC_append _ _ _ (toHex_ne_dash 2 0 (by norm_num)),
      splitOnC_append _ _ _ (toHex_ne_dash 32 _ ht),
      splitOnC_append _ _ _ (toHex_ne_dash 16 _ hs),
      splitOnC_sepFree _ _ (toHex_ne_dash 2 _ hfl)]
  simp only [toHex_length, parseHex_toHex 2 0 (by norm_num),
    parseHex_toHex 32 _ ht, parseHex_toHex 16 _ hs, parseHex_toHex 2 _ hfl]
  rw [if_pos (by norm_num)]
  rw [if_neg (by omega)]
  cases c.sampled <;> simp

theorem injectBaggageEntry_comma_free (e : Str × Str)
    (hk : ∀ ch ∈ e.1, ch.toNat < 256) (hv : ∀ ch ∈ e.2, ch.toNat < 256) :
    ∀ ch ∈ injectBaggageEntry e, ch ≠ ',' := by
  intro ch hch
  unfold injectBaggageEntry at hch
  rcases List.mem_append.1 hch with hc | hc
  · exact (percentEncode_ne_sep e.1 hk ch hc).1
  · rcases List.mem_cons.1 hc with rfl | hc'
    · decide
    · exact (percentEncode_ne_sep e.2 hv ch hc').1

theorem parseBaggageEntry_injectBaggageEntry (e : Str × Str)
    (hk : ∀ ch ∈ e.1, ch.toNat < 256) (hv : ∀ ch ∈ e.2, ch.toNat < 256) :
    parseBaggageEntry (injectBaggageEntry e) = some e := by
  unfold parseBaggageEntry injectBaggageEntry
  rw [splitOnC_append _ _ _ (fun ch hc => (percentEncode_ne_sep e.1 hk ch hc).2),
      splitOnC_sepFree _ _ (fun ch hc => (percentEncode_ne_sep e.2 hv ch hc).2)]
  simp only [percentDecode_percentEncode e.1 hk, percentDecode_percentEncode e.2 hv]

theorem parseEntries_map (b : List (Str × Str))
    (hb : ∀ e ∈ b, (∀ ch ∈ e.1, ch.toNat < 256) ∧ ∀ ch ∈ e.2, ch.toNat < 256) :
    parseEntries (b.map injectBaggageEntry) = some b := by
  induction b with
  | nil => rfl
  | cons e es ih =>
    have he := hb e (by simp)
    have hes : ∀ x ∈ es, (∀ ch ∈ x.1, ch.toNat < 256) ∧ ∀ ch ∈ x.2, ch.toNat < 256 :=
      fun x hx => hb x (List.mem_cons_of_mem e hx)
    simp only [List.map_cons, parseEntries,
      parseBaggageEntry_injectBaggageEntry e he.1 he.2, ih hes]

theorem parseBaggage_injectBaggage (b : List (Str × Str)) (hne : b ≠ [])
    (hb : ∀ e ∈ b, (∀ ch ∈ e.1, ch.toNat < 256) ∧ ∀ ch ∈ e.2, ch.toNat < 256) :
    parseBaggage (injectBaggage b) = some b := by
  unfold parseBaggage injectBaggage
  rw [splitOnC_joinSep ',' _ (by simpa using hne)
    (by
      intro g hg ch hch
      obtain ⟨e, he, rfl⟩ := List.mem_map.1 hg
      exact injectBaggageEntry_comma_free e (hb e he).1 (hb e he).2 ch hch)]
  exact parseEntries_map b hb

/-- **C1.**  For every valid `ExecutionContext` (non-zero in-range trace and
span ids, single-byte baggage), extracting the header map produced by
injecting the context yields exactly that context:
`extract (inject c) = some c` for the composite W3C traceparent + baggage
propagation configured in the tracer bootstrap (`src/tracer.ts:103-105`). -/
theorem extract_inject_roundtrip (c : ExecutionContext) (h : ValidContext c) :
    extract (inject c) = some c := by
  obtain ⟨h1, h2, h3, h4, hb⟩ := h
  obtain ⟨t, p, s, bg⟩ := c
  unfold inject extract
  simp only [parseTraceparent_injectTraceparent ⟨t, p, s, bg⟩ h1 h2 h3 h4]
  rcases bg with _ | ⟨e, es⟩
  · simp
  · rw [if_neg (by simp)]
    simp only [parseBaggage_injectBaggage (e :: es) (by simp) hb, Option.getD_some]

/-- **C1 witness.**  A concrete valid context (the baggage entry mirrors the
`user.plan = enterprise` entry set by the todo service) round-trips. -/
theorem extract_inject_roundtrip_witness :
    ValidContext
        ⟨1, 2, true, [("user.plan".data, "enterprise".data)]⟩ ∧
      extract (inject ⟨1, 2, true, [("user.plan".data, "enterprise".data)]⟩)
        = some ⟨1, 2, true, [("user.plan".data, "enterprise".data)]⟩ :=
  ⟨by decide, extract_inject_roundtrip _ (by decide)⟩

/-! ## Malformed headers (C2)

A `traceparent` value is well formed when it is four dash-separated
lowercase-hex fields of widths 2/32/16/2, the version is not the invalid
`ff`, and the trace and span ids are not all-zero.  The predicate below is
stated structurally, independently of the parser. -/

/-- Lowercase hex digit: `'0'`–`'9'` or `'a'`–`'f'` (by code point). -/
def isLowerHexDigit (c : Char) : Bool :=
  (48 ≤ c.toNat && c.toNat ≤ 57) || (97 ≤ c.toNat && c.toNat ≤ 102)

theorem parseHexDigit_isSome_iff (c : Char) :
    (parseHexDigit c).isSome = isLowerHexDigit c := by
  unfold parseHexDigit isLowerHexDigit
  split
  · rename_i h
    simp [h.1, h.2]
  · split
    · rename_i h1 h2
      simp [h2.1, h2.2]
    · rename_i h1 h2
      simp only [Option.isSome_none]
      symm
      simp only [Bool.or_eq_false_iff, Bool.and_eq_false_iff,
        decide_eq_false_iff_not]
      omega

/-- Structural shape of an accepted `traceparent` value. -/
def WellFormedTraceparent (tp : Str) : Prop :=
  ∃ ver tid sid fl : Str,
    tp = ver ++ ('-' :: (tid ++ ('-' :: (sid ++ ('-' :: fl))))) ∧
    ver.length = 2 ∧ tid.length = 32 ∧ sid.length = 16 ∧ fl.length = 2 ∧
    (∀ c ∈ ver, isLowerHexDigit c) ∧ (∀ c ∈ tid, isLowerHexDigit c) ∧
    (∀ c ∈ sid, isLowerHexDigit c) ∧ (∀ c ∈ fl, isLowerHexDigit c) ∧
    ver ≠ ['f', 'f'] ∧
    tid ≠ List.replicate 32 '0' ∧ sid ≠ List.replicate 16 '0'

/-- A header map carrying a well-formed `traceparent`. -/
def WellFormedHeaders (h : Headers) : Prop :=
  ∃ tp, h.traceparent = some tp ∧ WellFormedTraceparent tp

theorem parseHex_replicate_zero_32 : parseHex (List.replicate 32 '0') = some 0 := by
  decide

theorem parseHex_replicate_zero_16 : parseHex (List.replicate 16 '0') = some 0 := by
  decide

/-- If the traceparent parser accepts a string, the string is structurally
well formed. -/
theorem wellFormed_of_parseTraceparent (tp : Str) (r : Nat × Nat × Bool)
    (hp : parseTraceparent tp = some r) : WellFormedTraceparent tp := by
  unfold parseTraceparent at hp
  rcases hsp : splitOnC '-' tp
    with _ | ⟨ver, _ | ⟨tid, _ | ⟨sid, _ | ⟨fl, _ | ⟨x, xs⟩⟩⟩⟩⟩
  · simp only [hsp] at hp
    exact Option.noConfusion hp
  · simp only [hsp] at hp
    exact Option.noConfusion hp
  · simp only [hsp] at hp
    exact Option.noConfusion hp
  · simp only [hsp] at hp
    exact Option.noConfusion hp
  swap
  · simp only [hsp] at hp
    exact Option.noConfusion hp
  simp only [hsp] at hp
  by_cases hlen : ver.length = 2 ∧ tid.length = 32 ∧ sid.length = 16 ∧ fl.length = 2
  case neg => rw [if_neg hlen] at hp; exact Option.noConfusion hp
  rw [if_pos hlen] at hp
  rcases hv : parseHex ver with _ | v
  · simp only [hv] at hp
    exact Option.noConfusion hp
  simp only [hv] at hp
  rcases hti : parseHex tid with _ | t
  · simp only [hti] at hp
    exact Option.noConfusion hp
  simp only [hti] at hp
  rcases hsi : parseHex sid with _ | p
  · simp only [hsi] at hp
    exact Option.noConfusion hp
  simp only [hsi] at hp
  rcases hfl : parseHex fl with _ | f
  · simp only [hfl] at hp
    exact Option.noConfusion hp
  simp only [hfl] at hp
  by_cases hz : v = 255 ∨ t = 0 ∨ p = 0
  case pos => rw [if_pos hz] at hp; exact Option.noConfusion hp
  rw [if_neg hz] at hp
  push_neg at hz
  refine ⟨ver, tid, sid, fl, ?_, hlen.1, hlen.2.1, hlen.2.2.1, hlen.2.2.2,
    ?_, ?_, ?_, ?_, ?_, ?_, ?_⟩
  · have := joinSep_splitOnC '-' tp
    rw [hsp] at this
    simpa [joinSep] using this.symm
  · intro c hc
    rw [← parseHexDigit_isSome_iff]
    exact parseHexGo_mem ver 0 v hv c hc
  · intro c hc
    rw [← parseHexDigit_isSome_iff]
    exact parseHexGo_mem tid 0 t hti c hc
  · intro c hc
    rw [← parseHexDigit_isSome_iff]
    exact parseHexGo_mem sid 0 p hsi c hc
  · intro c hc
    rw [← parseHexDigit_isSome_iff]
    exact parseHexGo_mem fl 0 f hfl c hc
  · intro hff
    rw [hff] at hv
    have : v = 255 := by
      have : (some 255 : Option Nat) = some v := by rw [← hv]; decide
      simpa using this.symm
    exact hz.1 this
  · intro h0
    rw [h0, parseHex_replicate_zero_32] at hti
    exact hz.2.1 (by simpa using hti.symm)
  · intro h0
    rw [h0, parseHex_replicate_zero_16] at hsi
    exact hz.2.2 (by simpa using hsi.symm)

/-- If `extract` finds a parent, the headers were well formed. -/
theorem wellFormed_of_extract (h : Headers) (c : ExecutionContext)
    (he : extract h = some c) : WellFormedHeaders h := by
  unfold extract at he
  rcases htp : h.traceparent with _ | tp
  · simp only [htp] at he
    exact Option.noConfusion he
  · simp only [htp] at he
    rcases hp : parseTraceparent tp with _ | r
    · simp only [hp] at he
      exact Option.noConfusion he
    · exact ⟨tp, htp, wellFormed_of_parseTraceparent tp r hp⟩

/-- **C2.**  For every malformed or missing incoming header map — any header
map without a structurally well-formed `traceparent` — `extract` returns the
"no parent" (new root) result `none`.  `extract` is a total Lean function,
so no input can raise an exception to the caller. -/
theorem extract_malformed_root (h : Headers) (hm : ¬ WellFormedHeaders h) :
    extract h = none := by
  rcases hx : extract h with _ | c
  · rfl
  · exact absurd (wellFormed_of_extract h c hx) hm

/-- **C2 witness.**  A nonsense `traceparent` value (and a missing header
map) are rejected: extraction yields the root context. -/
theorem extract_malformed_root_witness :
    ¬ WellFormedHeaders ⟨some ['x'], none⟩ ∧
      extract ⟨some ['x'], none⟩ = none ∧
      extract ⟨none, none⟩ = none := by
  have hm : ¬ WellFormedHeaders ⟨some ['x'], none⟩ := by
    rintro ⟨tp, htp, ver, tid, sid, fl, heq, hv, ht, hs, hf, -⟩
    have : tp = ['x'] := by simpa using htp.symm
    subst this
    have hlen := congrArg List.length heq
    simp [List.length_append, hv, ht, hs, hf] at hlen
  have hm' : ¬ WellFormedHeaders ⟨none, none⟩ := by
    rintro ⟨tp, htp, -⟩
    simp at htp
  exact ⟨hm, extract_malformed_root _ hm, extract_malformed_root _ hm'⟩

/-! ## The todo service (src/todo-service.ts)

The express application, its two middleware layers and the `GET /todos`
route, together with the metric instruments and tracking functions defined by
the bootstrap (`src/tracer.ts:56-80`).  Environment inputs (the Redis store
contents, the auth call's outcome, measured wall-clock durations) are
explicit arguments. -/

/-- A JSON value, as produced by `res.json` / `JSON.parse`. -/
inductive Json
  | str (s : String)
  | obj (fields : List (String × Json))
  | arr (elems : List Json)

/-- A JS `Error`; only the message is observable in this model. -/
structure Err where
  message : String
deriving DecidableEq

/-- An axios response: HTTP status and JSON data. -/
structure Resp where
  status : Nat
  data : Json

/-- Span status, per the OpenTelemetry API (`SpanStatusCode`). -/
inductive SpanStatus
  | unset
  | error (message : String)
deriving DecidableEq

/-- A span attribute value. -/
inductive AttrVal
  | natV (n : Nat)
  | strV (s : String)
deriving DecidableEq

/-- The record of one span: name, attributes, recorded exceptions (their
messages), status, and how many times `span.end()` was called on it. -/
structure SpanRec where
  name : String
  attrs : List (String × AttrVal)
  exceptions : List String
  status : SpanStatus
  endCount : Nat
deriving DecidableEq

/-- Labels recorded on the `http_calls` histogram; all three are optional in
`trackHttpRequest`'s signature (`src/tracer.ts:62`). -/
structure HttpLabels where
  route : Option String
  status : Option Nat
  method : Option String
deriving DecidableEq

/-- In-memory state of the five instruments created in `src/tracer.ts:56-60`.
Each instrument is the list of its recorded observations (value and labels);
durations are wall-clock environment data and are stored as given. -/
structure MetricsState where
  httpCalls : List (Nat × HttpLabels)
  redisCalls : List (Nat × String)
  errorCount : List (Option String × Option String)
  spanDuration : List (String × Nat)
  spanErrorCount : List (String × String)
deriving DecidableEq

/-- `trackHttpRequest` (src/tracer.ts:62-64). -/
def trackHttpRequest (m : MetricsState) (duration : Nat) (route : Option String)
    (status : Option Nat) (method : Option String) : MetricsState :=
  { m with httpCalls := m.httpCalls ++ [(duration, ⟨route, status, method⟩)] }

/-- `trackRedisCall` (src/tracer.ts:66-68). -/
def trackRedisCall (m : MetricsState) (duration : Nat) (operation : String) :
    MetricsState :=
  { m with redisCalls := m.redisCalls ++ [(duration, operation)] }

/-- `trackError` (src/tracer.ts:70-72): one `error_count` increment with
(method, route) labels. -/
def trackError (m : MetricsState) (method route : Option String) : MetricsState :=
  { m with errorCount := m.errorCount ++ [(method, route)] }

/-- `trackSpanDuration` (src/tracer.ts:74-76). -/
def trackSpanDuration (m : MetricsState) (spanName : String) (duration : Nat) :
    MetricsState :=
  { m with spanDuration := m.spanDuration ++ [(spanName, duration)] }

/-- `trackSpanError` (src/tracer.ts:78-80). -/
def trackSpanError (m : MetricsState) (spanName : String) (e : Err) : MetricsState :=
  { m with spanErrorCount := m.spanErrorCount ++ [(spanName, e.message)] }

/-- Embedding of `trackInternalApiCall` (src/todo-service.ts:36-67).  The
wrapped axios call's outcome is the `call` argument (an environment input).
The `try` arm sets status/method/url attributes and returns the response;
the `catch` arm records the exception on the span, sets error status, and
rethrows; the `finally` arm ends the span once on either path. -/
def trackInternalApiCall (url method : String) (call : Except Err Resp) :
    Except Err Resp × SpanRec :=
  let span0 : SpanRec :=
    { name := "Internal API Call: " ++ url, attrs := [], exceptions := [],
      status := .unset, endCount := 0 }
  match call with
  | .ok response =>
    (.ok response,
      { span0 with
          attrs := [("http.status_code", .natV response.status),
                    ("http.method", .strV method), ("http.url", .strV url)],
          endCount := span0.endCount + 1 })
  | .error e =>
    (.error e,
      { span0 with
          exceptions := span0.exceptions ++ [e.message],
          status := .error e.message,
          endCount := span0.endCount + 1 })

/-- An inbound request: method, path, and the two query flags the `/todos`
route reads (`req.query['slow']`, `req.query['fail']`). -/
structure Req where
  method : String
  path : String
  slow : Bool
  fail : Bool
deriving DecidableEq

/-- A response body.  `none` is a status-only response: `res.sendStatus`
sends no application payload (the HTTP server framework is an out-of-scope
collaborator; the spec describes this path as "an error status code with no
body").  `json` is a `res.json` payload; `text` covers express's default
handlers. -/
inductive Body
  | none
  | json (v : Json)
  | text (s : String)

structure Response where
  status : Nat
  body : Body

/-- Outcome of the `GET /todos` handler for one request. -/
structure HandlerOut where
  response : Response
  activeSpanExceptions : List String
  internalSpan : SpanRec
  forwardedError : Bool

/-- Keys matched by `redis.keys('todo:*')`. -/
def todoKeys (store : List (String × Json)) : List String :=
  (store.filter (fun kv => kv.1.startsWith "todo:")).map Prod.fst

/-- `redis.get` on the store. -/
def storeGet (store : List (String × Json)) (k : String) : Option Json :=
  (store.find? (fun kv => kv.1 = k)).map Prod.snd

/-- Embedding of the `GET /todos` handler (src/todo-service.ts:77-119).
Environment inputs: the store contents (values already JSON-parsed — `init`
writes only valid JSON), the auth call outcome, and the measured duration
`dur` used for each timing observation.  The `slow` flag only sleeps and has
no further observable effect here.  Every exit path responds directly
(`res.sendStatus` / `res.json` / `res.status(...).json(...)`); no path calls
`next(err)`, so `forwardedError` is `false` on each. -/
def todosHandler (req : Req) (store : List (String × Json))
    (auth : Except Err Resp) (dur : Nat) (m : MetricsState) :
    HandlerOut × MetricsState :=
  match trackInternalApiCall "http://auth:8080/auth" "GET" auth with
  | (.error _, span) =>
    -- catch (src/todo-service.ts:116-118): res.status(500).json({...}),
    -- before any Redis access
    (⟨⟨500, .json (.obj [("error", .str "Internal Server Error")])⟩,
      [], span, false⟩, m)
  | (.ok userResponse, span) =>
    let keys := todoKeys store
    let m1 := trackRedisCall m dur "keys"
    let m2 := keys.foldl (fun acc _ => trackRedisCall acc dur "get") m1
    let todos := keys.filterMap (storeGet store)
    if req.fail then
      -- fail branch (src/todo-service.ts:98-111): throw, record the
      -- exception on the active span, res.sendStatus(500)
      (⟨⟨500, .none⟩, ["Really bad error!"], span, false⟩, m2)
    else
      (⟨⟨200, .json (.obj [("todos", .arr todos), ("user", userResponse.data)])⟩,
        [], span, false⟩, m2)

/-- Result of one request through the express app. -/
structure AppOut where
  response : Response
  activeSpanExceptions : List String
  internalSpan : Option SpanRec
  forwardedError : Bool

/-- Embedding of the express pipeline of `src/todo-service.ts`.  Layers in
registration order: (1) the http-tracking middleware (:16-22) registers a
`finish` listener and always calls plain `next()`; (2) the error-tracking
middleware (:25-30) is an error-handling layer — express invokes an error
layer only for an error forwarded by a layer dispatched before it reaches
that position, so it could only run on an error forwarded by layer (1),
which never forwards one; an error forwarded by the later `/todos` route
would only reach error layers after the route, and none exist — moreover no
handler path forwards an error at all; (3) the `GET /todos` route; any other
request falls to express's default 404 handler.  When the response finishes,
the listener of layer (1) fires exactly once per completed request and
records `http_calls` with `(req.route?.path, res.statusCode, req.method)`;
`req.route` is set only when a route matched. -/
def runApp (req : Req) (store : List (String × Json)) (auth : Except Err Resp)
    (dur : Nat) (m : MetricsState) : AppOut × MetricsState :=
  if req.method = "GET" ∧ req.path = "/todos" then
    let hm := todosHandler req store auth dur m
    (AppOut.mk hm.1.response hm.1.activeSpanExceptions (some hm.1.internalSpan)
        hm.1.forwardedError,
      trackHttpRequest hm.2 dur (some "/todos") (some hm.1.response.status)
        (some req.method))
  else
    (AppOut.mk ⟨404, .text ("Cannot " ++ req.method ++ " " ++ req.path)⟩
        [] none false,
      trackHttpRequest m dur none (some 404) (some req.method))

/-- **C6.**  The outbound-call wrapper is purely observational: on success
it returns the wrapped call's response unchanged; an exception raised by the
wrapped call is re-raised unchanged to the caller after being recorded on
the span (with error status); and on every exit path the span it started is
ended exactly once. -/
theorem trackInternalApiCall_transparent (url method : String)
    (call : Except Err Resp) :
    (trackInternalApiCall url method call).1 = call ∧
    (trackInternalApiCall url method call).2.endCount = 1 ∧
    ∀ e, call = .error e →
      (trackInternalApiCall url method call).2.exceptions = [e.message] ∧
      (trackInternalApiCall url method call).2.status = .error e.message := by
  rcases call with e | r <;>
    simp [trackInternalApiCall]

/-- **C6 witness.**  The wrapper at the auth-call site, on a concrete failed
call: the error is re-raised, recorded, and the span ended once. -/
theorem trackInternalApiCall_transparent_witness :
    (trackInternalApiCall "http://auth:8080/auth" "GET"
        (Except.error ⟨"boom"⟩)).2.exceptions = ["boom"] ∧
      (trackInternalApiCall "http://auth:8080/auth" "GET"
        (Except.error ⟨"boom"⟩)).2.endCount = 1 :=
  ⟨((trackInternalApiCall_transparent "http://auth:8080/auth" "GET"
      (Except.error ⟨"boom"⟩)).2.2 ⟨"boom"⟩ rfl).1,
   (trackInternalApiCall_transparent "http://auth:8080/auth" "GET"
      (Except.error ⟨"boom"⟩)).2.1⟩

theorem foldl_trackRedisCall_httpCalls (keys : List String) (dur : Nat) :
    ∀ m : MetricsState,
      (keys.foldl (fun acc _ => trackRedisCall acc dur "get") m).httpCalls
        = m.httpCalls := by
  induction keys with
  | nil => intro m; rfl
  | cons k ks ih =>
    intro m
    rw [List.foldl_cons, ih]
    simp [trackRedisCall]

theorem foldl_trackRedisCall_errorCount (keys : List String) (dur : Nat) :
    ∀ m : MetricsState,
      (keys.foldl (fun acc _ => trackRedisCall acc dur "get") m).errorCount
        = m.errorCount := by
  induction keys with
  | nil => intro m; rfl
  | cons k ks ih =>
    intro m
    rw [List.foldl_cons, ih]
    simp [trackRedisCall]

/-- The `/todos` handler never touches the `http_calls` or `error_count`
instruments (it records only `redis_calls`), and never forwards an error to
express. -/
theorem todosHandler_effects (req : Req) (store : List (String × Json))
    (auth : Except Err Resp) (dur : Nat) (m : MetricsState) :
    (todosHandler req store auth dur m).2.httpCalls = m.httpCalls ∧
    (todosHandler req store auth dur m).2.errorCount = m.errorCount ∧
    (todosHandler req store auth dur m).1.forwardedError = false := by
  rcases auth with e | r
  · simp [todosHandler, trackInternalApiCall]
  · have hm2http : ∀ m0 : MetricsState,
        ((todoKeys store).foldl (fun acc _ => trackRedisCall acc dur "get")
          (trackRedisCall m0 dur "keys")).httpCalls = m0.httpCalls := by
      intro m0
      rw [foldl_trackRedisCall_httpCalls]
      simp [trackRedisCall]
    have hm2err : ∀ m0 : MetricsState,
        ((todoKeys store).foldl (fun acc _ => trackRedisCall acc dur "get")
          (trackRedisCall m0 dur "keys")).errorCount = m0.errorCount := by
      intro m0
      rw [foldl_trackRedisCall_errorCount]
      simp [trackRedisCall]
    by_cases hf : req.fail <;>
      simp [todosHandler, trackInternalApiCall, hf, hm2http, hm2err]

/-- **C3.**  Every completed inbound request records exactly one
`http_calls` observation — the finish listener registered by the tracking
middleware fires once per completed response — labelled with the matched
route (absent when no route matched), the response status, and the request
method, whether the request succeeded or failed. -/
theorem httpCalls_once_per_request (req : Req) (store : List (String × Json))
    (auth : Except Err Resp) (dur : Nat) (m : MetricsState) :
    (runApp req store auth dur m).2.httpCalls
      = m.httpCalls
        ++ [(dur,
          ⟨if req.method = "GET" ∧ req.path = "/todos" then some "/todos" else none,
           some (runApp req store auth dur m).1.response.status,
           some req.method⟩)] := by
  by_cases hroute : req.method = "GET" ∧ req.path = "/todos"
  · simp only [runApp, if_pos hroute, trackHttpRequest]
    simp [(todosHandler_effects req store auth dur m).1]
  · simp [runApp, if_neg hroute, trackHttpRequest]

/-- **C4 (code evaluated at the failing input).**  `GET /todos?fail=1`
completes with error status 500, yet `error_count` is not incremented: the
`/todos` handler responds directly on every path and never calls
`next(err)`, so the error-tracking middleware (which express would anyway
only invoke for errors forwarded by layers before it) never runs.  This
holds for every store, auth outcome, duration and prior metric state. -/
theorem fail_request_500_but_no_errorCount (store : List (String × Json))
    (auth : Except Err Resp) (dur : Nat) (m : MetricsState) :
    (runApp ⟨"GET", "/todos", false, true⟩ store auth dur m).1.response.status
        = 500 ∧
      (runApp ⟨"GET", "/todos", false, true⟩ store auth dur m).2.errorCount
        = m.errorCount := by
  constructor
  · rcases auth with e | r <;>
      simp [runApp, todosHandler, trackInternalApiCall, trackHttpRequest]
  · simp [runApp, trackHttpRequest,
      (todosHandler_effects ⟨"GET", "/todos", false, true⟩ store auth dur m).2.1]

/-- **C5.**  `GET /todos` with the fail flag set (auth call succeeding, any
`slow` flag, any store): the handler responds 500 via `res.sendStatus` with
no application body, and exactly one exception is recorded on the active
span. -/
theorem fail_flag_500_empty_body_one_exception (store : List (String × Json))
    (r : Resp) (dur : Nat) (m : MetricsState) (slow : Bool) :
    (runApp ⟨"GET", "/todos", slow, true⟩ store (.ok r) dur m).1.response
        = ⟨500, .none⟩ ∧
      (runApp ⟨"GET", "/todos", slow, true⟩ store (.ok r) dur m).1.activeSpanExceptions
        = ["Really bad error!"] := by
  constructor <;>
    simp [runApp, todosHandler, trackInternalApiCall]

/-- **C10.**  If the outbound auth call raises, the `/todos` handler catches
it: the response is 500 with JSON body `{"error":"Internal Server Error"}`,
no Redis read happens (no `redis_calls` observation is recorded), and the
exception is not forwarded past the route handler. -/
theorem auth_failure_caught (store : List (String × Json)) (e : Err)
    (dur : Nat) (m : MetricsState) (slow fail : Bool) :
    (runApp ⟨"GET", "/todos", slow, fail⟩ store (.error e) dur m).1.response
        = ⟨500, .json (.obj [("error", .str "Internal Server Error")])⟩ ∧
      (runApp ⟨"GET", "/todos", slow, fail⟩ store (.error e) dur m).2.redisCalls
        = m.redisCalls ∧
      (runApp ⟨"GET", "/todos", slow, fail⟩ store (.error e) dur m).1.forwardedError
        = false := by
  refine ⟨?_, ?_, ?_⟩ <;>
    simp [runApp, todosHandler, trackInternalApiCall, trackHttpRequest]

/-! ## Sampling (src/tracer.ts:102)

`sampler: new ParentBasedSampler({ root: new OurSampler() })`.
`ParentBasedSampler` comes from `@opentelemetry/sdk-trace-base` and
`OurSampler` from `./ourSampler`; neither's code is under `src/`, so both
are modelled from the spec (§4.2): a non-root span inherits the parent's
decision verbatim, and the root policy is pluggable, deterministic keyed on
the trace id, with no side effects. -/

inductive SamplingDecision
  | recordAndExport
  | drop
deriving DecidableEq

/-- The part of a parent context the sampler consults: whether the parent
was sampled. -/
structure ParentInfo where
  sampled : Bool
deriving DecidableEq

/-- A sampler over internal state `σ`: consumes the optional parent context,
the trace id, and its state. -/
def Sampler (σ : Type) :=
  Option ParentInfo → Nat → σ → SamplingDecision × σ

/-- Modelled from the spec: `OurSampler` (imported from `./ourSampler`,
missing from `src/`) is a pluggable root policy applied "deterministically
keyed on trace-id ... no side effects" — a pure function of the trace id
that leaves the sampler state untouched. -/
def pureRootSampler {σ : Type} (policy : Nat → SamplingDecision) : Sampler σ :=
  fun _ traceId s => (policy traceId, s)

/-- Modelled from the spec: `ParentBasedSampler { root }` — an existing
decision on the parent context is inherited verbatim; only a root span
consults the root policy. -/
def parentBasedSample {σ : Type} (root : Sampler σ) : Sampler σ :=
  fun parent traceId s =>
    match parent with
    | some p => ((if p.sampled then .recordAndExport else .drop), s)
    | none => root none traceId s

/-- **C7.**  With the configured sampler: (a) a non-root span inherits the
parent's decision verbatim — the result does not consult the root policy at
all, so descendants never re-sample; (b) for a root span the decision is a
deterministic function of the trace id: it is independent of the sampler
state, repeated evaluation on the same trace id yields the same decision,
and evaluation has no side effect on the state. -/
theorem parentBased_inherits_and_root_deterministic {σ : Type}
    (policy : Nat → SamplingDecision) (traceId : Nat) (s s' : σ) :
    (∀ (pol1 pol2 : Nat → SamplingDecision) (p : ParentInfo),
      parentBasedSample (pureRootSampler pol1) (some p) traceId s
        = ((if p.sampled then .recordAndExport else .drop), s) ∧
      parentBasedSample (pureRootSampler pol1) (some p) traceId s
        = parentBasedSample (pureRootSampler pol2) (some p) traceId s) ∧
    (parentBasedSample (pureRootSampler policy) none traceId s).1
        = (parentBasedSample (pureRootSampler policy) none traceId s').1 ∧
    (parentBasedSample (pureRootSampler policy) none traceId s).1
        = policy traceId ∧
    (parentBasedSample (pureRootSampler policy) none traceId s).2 = s :=
  ⟨fun _ _ _ => ⟨rfl, rfl⟩, rfl, rfl, rfl⟩

/-! ## Telemetry bootstrap (src/tracer.ts:16-123) -/

/-- What `start` returns (src/tracer.ts:123): the meter (identified by the
service name it was obtained with, src/tracer.ts:55) and the five tracking
functions. -/
structure TelemetryHandle where
  meterName : String
  trackHttp :
    MetricsState → Nat → Option String → Option Nat → Option String → MetricsState
  trackRedis : MetricsState → Nat → String → MetricsState
  trackErr : MetricsState → Option String → Option String → MetricsState
  trackSpanDur : MetricsState → String → Nat → MetricsState
  trackSpanErr : MetricsState → String → Err → MetricsState

/-- Embedding of `start` (src/tracer.ts:16-123) around the `sdk.start()`
try/catch (src/tracer.ts:108-113).  Whether `sdk.start()` succeeds or throws
is an environment input; the catch clause only logs.  The console output is
returned alongside the handle to keep the logging observable. -/
def startBoot (serviceName : String) (sdkStart : Except Err Unit) :
    TelemetryHandle × List String :=
  let log :=
    match sdkStart with
    | .ok _ => ["OpenTelemetry SDK started successfully"]
    | .error e => ["Error starting OpenTelemetry SDK: " ++ e.message]
  (⟨serviceName, trackHttpRequest, trackRedisCall, trackError,
      trackSpanDuration, trackSpanError⟩,
    log)

/-- **C8.**  If `sdk.start()` throws during bootstrap, the failure is
logged and `start` still completes normally, returning the very same handle
— the meter and all five tracking functions — as on success, so the service
can serve traffic without telemetry. -/
theorem start_survives_sdk_failure (serviceName : String) (e : Err) :
    (startBoot serviceName (.error e)).1
        = (startBoot serviceName (.ok ())).1 ∧
      (startBoot serviceName (.error e)).1.meterName = serviceName ∧
      (startBoot serviceName (.error e)).1.trackHttp = trackHttpRequest ∧
      (startBoot serviceName (.error e)).1.trackRedis = trackRedisCall ∧
      (startBoot serviceName (.error e)).1.trackErr = trackError ∧
      (startBoot serviceName (.error e)).1.trackSpanDur = trackSpanDuration ∧
      (startBoot serviceName (.error e)).1.trackSpanErr = trackSpanError ∧
      (startBoot serviceName (.error e)).2
        = ["Error starting OpenTelemetry SDK: " ++ e.message] :=
  ⟨rfl, rfl, rfl, rfl, rfl, rfl, rfl, rfl⟩

/-! ## The two bootstrap variants (C9)

`src/tracer.ts` and `src/unnamed/part_000` each define a `start(serviceName)`
bootstrap.  Each variant's observable configuration is transcribed below
from its own file. -/

inductive InstrumentKind
  | histogram
  | counter
deriving DecidableEq

structure InstrumentSpec where
  name : String
  kind : InstrumentKind
  description : String
deriving DecidableEq

/-- Pyroscope continuous-profiling configuration. -/
structure ProfilingConfig where
  appName : String
  serverAddress : String
deriving DecidableEq

/-- The observable configuration a bootstrap variant assembles. -/
structure BootConfig where
  resourceAttrs : List (String × String)
  prometheusPort : Nat
  metricExporterUrl : String
  exportIntervalMillis : Nat
  exportTimeoutMillis : Nat
  instruments : List InstrumentSpec
  traceExporterUrl : String
  samplerParentBasedOverOurSampler : Bool
  propagators : List String
  profiling : Option ProfilingConfig
  sigintHook : Bool
deriving DecidableEq

/-- Transcription of the configuration built by `start` in `src/tracer.ts`
(resource :17-21, pyroscope :24-31, prometheus :34-37, otlp metrics :40-48,
instruments :56-60, trace exporter :82, sampler :102, propagators :103-105,
SIGINT hook :116-120). -/
def tracerConfig (serviceName : String) : BootConfig :=
  { resourceAttrs := [("service.name", serviceName), ("team.owner", "Ashish"),
                      ("deployment", "4")],
    prometheusPort := 9494,
    metricExporterUrl := "http://collector:4318/v1/metrics",
    exportIntervalMillis := 60000,
    exportTimeoutMillis := 30000,
    instruments :=
      [⟨"http_calls", .histogram, "Tracks HTTP request duration"⟩,
       ⟨"redis_calls", .histogram, "Tracks Redis call duration"⟩,
       ⟨"error_count", .counter, "Counts application errors"⟩,
       ⟨"span_duration_seconds", .histogram, "Tracks span duration in seconds"⟩,
       ⟨"span_error_count", .counter, "Counts the number of errors in spans"⟩],
    traceExporterUrl := "http://collector:4318/v1/traces",
    samplerParentBasedOverOurSampler := true,
    propagators := ["W3CTraceContextPropagator", "W3CBaggagePropagator"],
    profiling := some ⟨"todo-app", "http://pyroscope:4040"⟩,
    sigintHook := true }

/-- Transcription of the configuration built by `start` in
`src/unnamed/part_000` (resource :16-20, prometheus :23-26, otlp metrics
:29-38, instruments :50-63, trace exporter :88, sampler :111, propagators
:112-114).  This variant has no Pyroscope block and no SIGINT handler. -/
def part000Config (serviceName : String) : BootConfig :=
  { resourceAttrs := [("service.name", serviceName), ("team.owner", "Ashish"),
                      ("deployment", "4")],
    prometheusPort := 9494,
    metricExporterUrl := "http://collector:4318/v1/metrics",
    exportIntervalMillis := 60000,
    exportTimeoutMillis := 30000,
    instruments :=
      [⟨"http_calls", .histogram, "Tracks HTTP request duration"⟩,
       ⟨"redis_calls", .histogram, "Tracks Redis call duration"⟩,
       ⟨"error_count", .counter, "Counts application errors"⟩,
       ⟨"span_duration_seconds", .histogram, "Tracks span duration in seconds"⟩,
       ⟨"span_error_count", .counter, "Counts the number of errors in spans"⟩],
    traceExporterUrl := "http://jaeger:4318/v1/traces",
    samplerParentBasedOverOurSampler := true,
    propagators := ["W3CTraceContextPropagator", "W3CBaggagePropagator"],
    profiling := none,
    sigintHook := false }

/-- **C9 counterexample.**  The two variants are not equivalent up to the
trace-export destination alone: equating the trace exporter URL still leaves
different configurations, because `src/tracer.ts` additionally initializes
Pyroscope continuous profiling (`todo-app` → `http://pyroscope:4040`) and a
SIGINT shutdown hook, which `src/unnamed/part_000` lacks. -/
theorem bootVariants_differ_beyond_exporter :
    ({ tracerConfig "todo-service" with
        traceExporterUrl := (part000Config "todo-service").traceExporterUrl }
      ≠ part000Config "todo-service") ∧
    (tracerConfig "todo-service").profiling
        = some ⟨"todo-app", "http://pyroscope:4040"⟩ ∧
    (part000Config "todo-service").profiling = none ∧
    (tracerConfig "todo-service").sigintHook = true ∧
    (part000Config "todo-service").sigintHook = false := by
  refine ⟨?_, rfl, rfl, rfl, rfl⟩
  intro h
  have := congrArg BootConfig.profiling h
  simp [tracerConfig, part000Config] at this

/-- **C9 amended.**  For every service name the two variants construct the
same resource attributes, the same five instruments with identical names,
kinds and descriptions, the same parent-based sampler over `OurSampler`,
the same composite propagator, and the same metric exporters; their single
trace exporter URLs differ only in the host segment (`collector` vs
`jaeger`); but additionally `src/tracer.ts` alone configures Pyroscope
profiling and a SIGINT shutdown hook. -/
theorem bootVariants_agree_except_exporter_and_profiling
    (serviceName : String) :
    (tracerConfig serviceName).resourceAttrs
        = (part000Config serviceName).resourceAttrs ∧
      (tracerConfig serviceName).instruments
        = (part000Config serviceName).instruments ∧
      (tracerConfig serviceName).samplerParentBasedOverOurSampler
        = (part000Config serviceName).samplerParentBasedOverOurSampler ∧
      (tracerConfig serviceName).propagators
        = (part000Config serviceName).propagators ∧
      (tracerConfig serviceName).prometheusPort
        = (part000Config serviceName).prometheusPort ∧
      (tracerConfig serviceName).metricExporterUrl
        = (part000Config serviceName).metricExporterUrl ∧
      (tracerConfig serviceName).exportIntervalMillis
        = (part000Config serviceName).exportIntervalMillis ∧
      (tracerConfig serviceName).exportTimeoutMillis
        = (part000Config serviceName).exportTimeoutMillis ∧
      (tracerConfig serviceName).traceExporterUrl
        = "http://" ++ "collector" ++ ":4318/v1/traces" ∧
      (part000Config serviceName).traceExporterUrl
        = "http://" ++ "jaeger" ++ ":4318/v1/traces" ∧
      (tracerConfig serviceName).profiling
        = some ⟨"todo-app", "http://pyroscope:4040"⟩ ∧
      (part000Config serviceName).profiling = none ∧
      (tracerConfig serviceName).sigintHook ≠ (part000Config serviceName).sigintHook := by
  refine ⟨rfl, rfl, rfl, rfl, rfl, rfl, rfl, rfl, rfl, rfl, rfl, rfl, ?_⟩
  simp [tracerConfig, part000Config]

end OTel
